import Mathlib

/-!
Verification of the paxos_asyncio repository: a shallow embedding of the
message model (message.py), the acceptor and proposer handler logic
(participants.py), the proposal generator (process_generator.py) and the
coordinator (coordinator.py), together with theorems settling the spec
claims about them.

Python `Optional[int]` is embedded as `Option Int`; Python `None` is `none`.
Python float expressions on small ints (`math.ceil(0.5*n)`, `int(0.5*n+1)`)
are exact and are embedded as the corresponding exact Nat computations.
-/

namespace PaxosAsyncio

/-! ## message.py: the three protocol message kinds -/

/-- PrepareMessage(number) from message.py. -/
structure PrepareMessage where
  number : Int
deriving DecidableEq

/-- PromiseMessage(number, prev_acc_number, prev_acc_value) from message.py. -/
structure PromiseMessage where
  number : Int
  prev_acc_number : Option Int
  prev_acc_value : Option Int
deriving DecidableEq

/-- AcceptMessage(number, proposal) from message.py. -/
structure AcceptMessage where
  number : Int
  proposal : Int
deriving DecidableEq

/-! ## participants.py: Acceptor -/

/-- The mutable fields of an Acceptor (participants.py, Acceptor.__init__):
highest_number_seen, accepted_number, accepted_value, all Optional[int]. -/
structure AcceptorState where
  highest_number_seen : Option Int
  accepted_number : Option Int
  accepted_value : Option Int
deriving DecidableEq

/-- The state of a freshly constructed Acceptor: all three fields None. -/
def AcceptorState.init : AcceptorState := ⟨none, none, none⟩

/-- Acceptor._handle_prepare_message: if highest_number_seen is None or
less than the incoming number, record the number and reply with
PromiseMessage(number, accepted_number, accepted_value); otherwise no reply
and no state change. Returns the new state and the optional reply. -/
def handle_prepare_message (s : AcceptorState) (msg : PrepareMessage) :
    AcceptorState × Option PromiseMessage :=
  let number := msg.number
  if (match s.highest_number_seen with
      | none => true
      | some h => decide (h < number)) then
    ({ s with highest_number_seen := some number },
     some ⟨number, s.accepted_number, s.accepted_value⟩)
  else
    (s, none)

/-- Acceptor._handle_accept_message: if msg.number equals highest_number_seen
(in Python, `int == None` is False, so this requires highest_number_seen to be
a present value), set accepted_number and accepted_value; otherwise no-op. -/
def handle_accept_message (s : AcceptorState) (msg : AcceptMessage) : AcceptorState :=
  if s.highest_number_seen = some msg.number then
    { s with accepted_number := some msg.number, accepted_value := some msg.proposal }
  else
    s

/-- A handler invocation on an acceptor: a Prepare or an Accept delivery. -/
inductive AcceptorEvent where
  | prepare (msg : PrepareMessage)
  | accept (msg : AcceptMessage)
deriving DecidableEq

/-- One handler invocation, keeping only the state. -/
def acceptorStep (s : AcceptorState) : AcceptorEvent → AcceptorState
  | .prepare msg => (handle_prepare_message s msg).1
  | .accept msg => handle_accept_message s msg

/-- A sequence of handler invocations on one acceptor. -/
def acceptorRun (s : AcceptorState) (es : List AcceptorEvent) : AcceptorState :=
  es.foldl acceptorStep s

/-- A sequence consisting only of onPrepare calls. -/
def acceptorRunPrepares (s : AcceptorState) (msgs : List PrepareMessage) : AcceptorState :=
  msgs.foldl (fun st m => (handle_prepare_message st m).1) s

/-- Ordering on the optional highest_number_seen field: a present value may
only grow and may never return to None. -/
def hnsLE : Option Int → Option Int → Prop
  | none, _ => True
  | some a, some b => a ≤ b
  | some _, none => False

/-! ## process_generator.py: IncProposalGenerator -/

/-- IncProposalGenerator: holds the counter x, initialised to the seed. -/
structure IncProposalGenerator where
  x : Int
deriving DecidableEq

/-- IncProposalGenerator.get_proposal: returns (x, x) and advances x by 1000.
The pair is (proposal value, proposal number); the new generator state is the
second component. -/
def get_proposal (g : IncProposalGenerator) :
    (Int × Int) × IncProposalGenerator :=
  ((g.x, g.x), ⟨g.x + 1000⟩)

/-- The proposal numbers produced by k successive get_proposal calls on one
generator instance, in call order. -/
def proposalNumbers (g : IncProposalGenerator) : Nat → List Int
  | 0 => []
  | k + 1 =>
    let r := get_proposal g
    r.1.2 :: proposalNumbers r.2 k

/-! ## participants.py: Proposer -/

/-- The mutable fields of a Proposer (participants.py, Proposer.__init__):
proposal, number (both Optional[int]), acceptors (Optional list of acceptor
ids), promises (a dict from sender id to PromiseMessage, embedded as an
association list in insertion order), and v (set by _handle_promise_message;
absent before the first threshold crossing, embedded as Option). -/
structure ProposerState where
  proposal : Option Int
  number : Option Int
  acceptors : Option (List Nat)
  promises : List (Nat × PromiseMessage)
  v : Option Int
deriving DecidableEq

/-- Python dict assignment promises[frm] = msg: replace the entry when the
key is present (keeping its position), append otherwise. -/
def dictInsert (m : List (Nat × PromiseMessage)) (frm : Nat)
    (msg : PromiseMessage) : List (Nat × PromiseMessage) :=
  if m.any (fun p => p.1 = frm) then
    m.map (fun p => if p.1 = frm then (frm, msg) else p)
  else
    m ++ [(frm, msg)]

/-- math.ceil(0.5 * n) for a Nat n (exact: 0.5*n is an exact float here). -/
def ceilHalf (n : Nat) : Nat := (n + 1) / 2

/-- The value computed at the threshold crossing in
Proposer._handle_promise_message: the max prev_acc_value among the recorded
promises that carry one, defaulting to the proposer's own proposal. -/
def promiseValue (proposal : Option Int)
    (promises : List (Nat × PromiseMessage)) : Option Int :=
  match (promises.filterMap (fun p => p.2.prev_acc_value)).max? with
  | some m => some m
  | none => proposal

/-- Proposer._handle_promise_message: record the promise under the sender id;
when the recorded count equals math.ceil(0.5 * len(acceptors)), compute v and
send AcceptMessage(number, v) to every id in acceptors. The result is the new
state and the list of (recipient, AcceptMessage) sends; the asserts in the
Python body become error results. -/
def handle_promise_message (s : ProposerState) (msg : PromiseMessage)
    (frm : Nat) : Except String (ProposerState × List (Nat × AcceptMessage)) :=
  let promises := dictInsert s.promises frm msg
  match s.acceptors with
  | none => .error "assert self.acceptors is not None"
  | some accs =>
    if promises.length = ceilHalf accs.length then
      match s.number, promiseValue s.proposal promises with
      | some n, some vv =>
        .ok ({ s with promises := promises, v := some vv },
             accs.map (fun a => (a, AcceptMessage.mk n vv)))
      | none, _ => .error "assert self.number is not None"
      | _, none => .error "assert self.v is not None"
    else
      .ok ({ s with promises := promises }, [])

/-! ## coordinator.py: Coordinator -/

/-- The role of a registered processor (its Python class). Proposer and
Acceptor are sibling subclasses of Processor, so isinstance(x, Acceptor)
holds exactly for the acceptor kind. -/
inductive ProcKind where
  | acceptor
  | proposer
  | monitor
deriving DecidableEq

/-- A registered processor as the coordinator sees it: its id (position in
the registry), its class, its alive flag, and (for acceptors) the accepted
fields read by report_accepted. -/
structure Proc where
  id : Nat
  kind : ProcKind
  alive : Bool
  accepted_number : Option Int
  accepted_value : Option Int
deriving DecidableEq

/-- Coordinator._get_acceptors: the registered processors that are Acceptor
instances and are not excluded. Python membership `x not in exclude` compares
object identity; registered processors are distinct objects with distinct
ids, so exclusion is embedded by id. Note the alive flag is NOT consulted. -/
def get_acceptors (processors : List Proc) (exclude : List Nat) : List Proc :=
  processors.filter (fun x => x.kind = ProcKind.acceptor ∧ ¬ exclude.contains x.id)

/-- The sample size chosen in get_quorum_of_acceptor_ids for a pool of c
acceptors: min_num = int(0.5*c+1) = c/2+1, max_num = c, num = int(1*c) = c,
then num = min(max_num, max(min_num, num)). -/
def quorum_num (c : Nat) : Nat :=
  let min_num := c / 2 + 1
  let max_num := c
  let num := c
  min max_num (max min_num num)

/-- The contract of random.sample(pop, k): a k-element list of distinct
elements of pop. -/
def IsSample (pop : List Proc) (k : Nat) (s : List Proc) : Prop :=
  s.length = k ∧ s.Nodup ∧ ∀ x ∈ s, x ∈ pop

/-- The possible return values of Coordinator.get_quorum_of_acceptor_ids on
a given registry and exclude list: the ids of any random.sample of the
filtered acceptor pool, of the computed size. -/
def QuorumResult (processors : List Proc) (exclude : List Nat)
    (ids : List Nat) : Prop :=
  ∃ s, IsSample (get_acceptors processors exclude)
        (quorum_num (get_acceptors processors exclude).length) s ∧
       ids = s.map (fun x => x.id)

/-- util.all_equal: True when every element equals the first (and on the
empty iterable). Python `None == None` is True, matching equality on
Option Int. -/
def all_equal (l : List (Option Int)) : Bool :=
  match l with
  | [] => true
  | first :: rest => rest.all (fun val => val = first)

/-- Coordinator.report_accepted: done when the first acceptor's
accepted_value is present and all acceptors (alive or not) hold equal
accepted_value, or when no acceptor is alive; returns `not done`
(True = still running). Indexing acceptors[0] on an empty acceptor list
raises IndexError, embedded as none. -/
def report_accepted (processors : List Proc) : Option Bool :=
  let acceptors := get_acceptors processors []
  match acceptors with
  | [] => none
  | a0 :: _ =>
    let done1 := a0.accepted_value ≠ none
    let done2 := done1 && all_equal (acceptors.map (fun x => x.accepted_value))
    let done := done2 || ! (acceptors.any (fun x => x.alive))
    some (! done)

/-! ## message.py: dispatch and the catch-all handler -/

/-- MessageMixin._handle_message_catch builds its exception text from the
message class name, the actor class name and the sender id. The actor's own
id is in scope (self.id) but is not used; it is a parameter here so that this
can be stated. -/
def handle_message_catch (actor_kind : String) (_actor_id : Nat)
    (msg_kind : String) (frm : Nat) : String :=
  "No message handling logic for message type " ++ msg_kind ++
  " in " ++ actor_kind ++ " sent by " ++ toString frm

/-- The message class names registered (by message_handler_decorator) in the
single shared singledispatch table: PrepareMessage and AcceptMessage by
Acceptor, PromiseMessage by Proposer. The table lives on the shared
handle_message attribute, so registration is not per receiving role. -/
def registered_kinds : List String :=
  ["PrepareMessage", "AcceptMessage", "PromiseMessage"]

/-- A letter as far as dispatch is concerned: sender id and the class name
of the payload (dispatch keys on type(letter.message)). -/
structure KindLetter where
  frm : Nat
  msg_kind : String
deriving DecidableEq

/-- MessageMixin.process_mailbox restricted to dispatch outcomes: drain the
letters in order; a letter whose message kind has no registered handler makes
the catch-all raise, aborting the drain (and the actor's task) at once with
the exception text. -/
def process_mailbox_kinds (actor_kind : String) (actor_id : Nat) :
    List KindLetter → Except String Unit
  | [] => .ok ()
  | l :: rest =>
    if registered_kinds.contains l.msg_kind then
      process_mailbox_kinds actor_kind actor_id rest
    else
      .error (handle_message_catch actor_kind actor_id l.msg_kind l.frm)

/-! ## Helper lemmas -/

theorem hnsLE_refl (o : Option Int) : hnsLE o o := by
  cases o <;> simp [hnsLE]

theorem hnsLE_trans {a b c : Option Int} (h1 : hnsLE a b) (h2 : hnsLE b c) :
    hnsLE a c := by
  cases a <;> cases b <;> cases c <;> (simp_all [hnsLE]; try omega)

theorem prepare_step_hns (s : AcceptorState) (m : PrepareMessage) :
    hnsLE s.highest_number_seen
      ((handle_prepare_message s m).1).highest_number_seen := by
  cases hh : s.highest_number_seen with
  | none => simp [handle_prepare_message, hh, hnsLE]
  | some h =>
    by_cases hlt : h < m.number
    · simp [handle_prepare_message, hh, hlt, hnsLE]
      omega
    · simp [handle_prepare_message, hh, hlt, hnsLE]

theorem runPrepares_hns (s : AcceptorState) (msgs : List PrepareMessage) :
    hnsLE s.highest_number_seen
      (acceptorRunPrepares s msgs).highest_number_seen := by
  induction msgs generalizing s with
  | nil => exact hnsLE_refl _
  | cons m rest ih =>
    exact hnsLE_trans (prepare_step_hns s m) (ih _)

/-! ## Theorems for the claims -/

/-- Claim C4: across any sequence of onPrepare calls an acceptor's
highest_number_seen is monotonically non-decreasing; a Promise reply is sent
exactly when the incoming number is strictly greater than the current
highest_number_seen or that field is null; and for an incoming number at most
the current highest_number_seen nothing is sent and the state is unchanged. -/
theorem acceptor_prepare_monotone_and_reply :
    (∀ (s : AcceptorState) (msgs : List PrepareMessage),
      hnsLE s.highest_number_seen
        (acceptorRunPrepares s msgs).highest_number_seen)
    ∧ (∀ (s : AcceptorState) (m : PrepareMessage),
      ((handle_prepare_message s m).2 ≠ none ↔
        (s.highest_number_seen = none ∨
         ∃ h, s.highest_number_seen = some h ∧ h < m.number)))
    ∧ (∀ (s : AcceptorState) (m : PrepareMessage) (h : Int),
      s.highest_number_seen = some h → m.number ≤ h →
        handle_prepare_message s m = (s, none)) := by
  refine ⟨runPrepares_hns, ?_, ?_⟩
  · intro s m
    cases hh : s.highest_number_seen with
    | none => simp [handle_prepare_message, hh]
    | some h =>
      by_cases hlt : h < m.number
      · simp [handle_prepare_message, hh, hlt]
      · simp [handle_prepare_message, hh, hlt]
  · intro s m h hh hle
    have hlt : ¬ h < m.number := by omega
    simp [handle_prepare_message, hh, hlt]

/-- Witness for C4: on an acceptor with highest_number_seen = 7, a Prepare
with number 7 is a concrete instance: the state is unchanged and no reply is
sent. -/
theorem acceptor_prepare_monotone_and_reply_witness :
    handle_prepare_message ⟨some 7, none, none⟩ ⟨7⟩ =
      (⟨some 7, none, none⟩, none) :=
  acceptor_prepare_monotone_and_reply.2.2 ⟨some 7, none, none⟩ ⟨7⟩ 7
    rfl (by decide)

/-- Claim C5: applying the same AcceptMessage twice, with its number equal to
highest_number_seen at the first application (the field is unchanged by the
application, so also at the second), leaves the state identical to applying
it once; and an Accept whose number differs from the current
highest_number_seen leaves the state entirely unchanged. -/
theorem acceptor_accept_idempotent_and_noop :
    (∀ (s : AcceptorState) (msg : AcceptMessage),
      s.highest_number_seen = some msg.number →
        handle_accept_message (handle_accept_message s msg) msg =
          handle_accept_message s msg)
    ∧ (∀ (s : AcceptorState) (msg : AcceptMessage),
      s.highest_number_seen ≠ some msg.number →
        handle_accept_message s msg = s) := by
  constructor
  · intro s msg hh
    simp [handle_accept_message, hh]
  · intro s msg hh
    simp [handle_accept_message, hh]

/-- Witness for C5: a concrete instance of both conjuncts, at
highest_number_seen = 3 with Accept number 3 (idempotence) and with Accept
number 4 (silent no-op). -/
theorem acceptor_accept_idempotent_and_noop_witness :
    (handle_accept_message
        (handle_accept_message ⟨some 3, none, none⟩ ⟨3, 9⟩) ⟨3, 9⟩ =
      handle_accept_message ⟨some 3, none, none⟩ ⟨3, 9⟩)
    ∧ handle_accept_message ⟨some 3, none, none⟩ ⟨4, 9⟩ =
        ⟨some 3, none, none⟩ :=
  ⟨acceptor_accept_idempotent_and_noop.1 ⟨some 3, none, none⟩ ⟨3, 9⟩ rfl,
   acceptor_accept_idempotent_and_noop.2 ⟨some 3, none, none⟩ ⟨4, 9⟩
     (by decide)⟩

/-- Claim C6: for every seed and every k, the k proposal numbers produced by
successive get_proposal calls on one IncProposalGenerator instance form a
strictly increasing sequence: each is strictly greater than its
predecessor. -/
theorem inc_generator_strictly_increasing (s : Int) (k : Nat) :
    List.Chain' (fun a b => a < b) (proposalNumbers ⟨s⟩ k) := by
  induction k generalizing s with
  | zero => simp [proposalNumbers]
  | succ j ih =>
    rw [proposalNumbers]
    rcases j with _ | i
    · simp [proposalNumbers]
    · refine List.chain'_cons'.2 ⟨?_, ih (s + 1000)⟩
      intro y hy
      rw [proposalNumbers] at hy
      simp only [get_proposal, List.head?_cons, Option.mem_def,
        Option.some.injEq] at hy
      subst hy
      simp [get_proposal]

/-! ## The acceptor state invariant (claim C9) -/

/-- The invariant of claim C9: accepted_number and accepted_value are null
together, and a present accepted_number is bounded by a present
highest_number_seen. -/
def AcceptorInv (s : AcceptorState) : Prop :=
  (s.accepted_number = none ↔ s.accepted_value = none)
  ∧ ∀ an, s.accepted_number = some an →
      ∃ h, s.highest_number_seen = some h ∧ an ≤ h

theorem acceptorInv_init : AcceptorInv AcceptorState.init := by
  constructor
  · simp [AcceptorState.init]
  · intro an h
    simp [AcceptorState.init] at h

theorem prepare_fst_accepted_number (s : AcceptorState) (m : PrepareMessage) :
    ((handle_prepare_message s m).1).accepted_number = s.accepted_number := by
  unfold handle_prepare_message
  split
  · rfl
  · dsimp only
    split <;> rfl

theorem prepare_fst_accepted_value (s : AcceptorState) (m : PrepareMessage) :
    ((handle_prepare_message s m).1).accepted_value = s.accepted_value := by
  unfold handle_prepare_message
  split
  · rfl
  · dsimp only
    split <;> rfl

theorem acceptorInv_step {s : AcceptorState} (hs : AcceptorInv s)
    (e : AcceptorEvent) : AcceptorInv (acceptorStep s e) := by
  obtain ⟨hiff, hbound⟩ := hs
  cases e with
  | prepare m =>
    show AcceptorInv (handle_prepare_message s m).1
    constructor
    · rw [prepare_fst_accepted_number, prepare_fst_accepted_value]
      exact hiff
    · intro an han
      rw [prepare_fst_accepted_number] at han
      obtain ⟨h, hsome, hle⟩ := hbound an han
      have hmono := prepare_step_hns s m
      rw [hsome] at hmono
      cases hnew : ((handle_prepare_message s m).1).highest_number_seen with
      | none =>
        rw [hnew] at hmono
        exact absurd hmono (by simp [hnsLE])
      | some h2 =>
        rw [hnew] at hmono
        simp only [hnsLE] at hmono
        exact ⟨h2, rfl, by omega⟩
  | accept m =>
    show AcceptorInv (handle_accept_message s m)
    unfold handle_accept_message
    by_cases hh : s.highest_number_seen = some m.number
    · rw [if_pos hh]
      constructor
      · simp
      · intro an han
        simp only at han
        injection han with han
        exact ⟨m.number, hh, by omega⟩
    · rw [if_neg hh]
      exact ⟨hiff, hbound⟩

theorem acceptorInv_run {s : AcceptorState} (hs : AcceptorInv s)
    (es : List AcceptorEvent) : AcceptorInv (acceptorRun s es) := by
  induction es generalizing s with
  | nil => exact hs
  | cons e rest ih => exact ih (acceptorInv_step hs e)

/-- Claim C9: from the initial all-null acceptor state, every sequence of
onPrepare and onAccept handler invocations preserves: accepted_number is null
iff accepted_value is null, and a present accepted_number implies a present
highest_number_seen with accepted_number ≤ highest_number_seen. -/
theorem acceptor_invariant_holds (es : List AcceptorEvent) :
    AcceptorInv (acceptorRun AcceptorState.init es) :=
  acceptorInv_run acceptorInv_init es

/-- Witness for C9: the invariant evaluated after a concrete Prepare-Accept
sequence, where the acceptor ends with accepted pair (5, 7) and
highest_number_seen 5. -/
theorem acceptor_invariant_holds_witness :
    AcceptorInv (acceptorRun AcceptorState.init
      [AcceptorEvent.prepare ⟨5⟩, AcceptorEvent.accept ⟨5, 7⟩]) :=
  acceptor_invariant_holds
    [AcceptorEvent.prepare ⟨5⟩, AcceptorEvent.accept ⟨5, 7⟩]

/-! ## Coordinator lemmas -/

theorem quorum_num_eq (c : Nat) : quorum_num c = c := by
  unfold quorum_num
  dsimp only
  rw [Nat.max_def, Nat.min_def]
  split_ifs <;> omega

theorem all_equal_true_iff (l : List (Option Int)) :
    all_equal l = true ↔ ∀ x ∈ l, ∀ y ∈ l, x = y := by
  cases l with
  | nil => simp [all_equal]
  | cons f rest =>
    simp only [all_equal, List.all_eq_true, decide_eq_true_eq]
    constructor
    · intro h x hx y hy
      rcases List.mem_cons.1 hx with hx | hx <;>
        rcases List.mem_cons.1 hy with hy | hy
      · rw [hx, hy]
      · rw [hx, h y hy]
      · rw [hy, h x hx]
      · rw [h x hx, h y hy]
    · intro h x hx
      exact h x (List.mem_cons_of_mem f hx) f (List.mem_cons_self f rest)

theorem mem_get_acceptors {procs : List Proc} {exclude : List Nat} {p : Proc}
    (hp : p ∈ get_acceptors procs exclude) :
    p ∈ procs ∧ p.kind = ProcKind.acceptor ∧ exclude.contains p.id = false := by
  unfold get_acceptors at hp
  have := List.mem_filter.1 hp
  simpa using this

/-- Claim C10 (amended = as stated): report_accepted raises (none) exactly
when no acceptor is registered in the coordinator's processor list, and
returns normally (some verdict) whenever at least one acceptor is
registered. -/
theorem report_accepted_raises_iff_no_acceptors :
    ∀ procs : List Proc,
      (report_accepted procs = none ↔
        ∀ p ∈ procs, p.kind ≠ ProcKind.acceptor)
      ∧ ((∃ p ∈ procs, p.kind = ProcKind.acceptor) →
        ∃ b, report_accepted procs = some b) := by
  intro procs
  have hempty : get_acceptors procs [] = [] ↔
      ∀ p ∈ procs, p.kind ≠ ProcKind.acceptor := by
    unfold get_acceptors
    simp [List.filter_eq_nil_iff]
  constructor
  · cases hA : get_acceptors procs [] with
    | nil =>
      simp only [report_accepted, hA]
      simpa using hempty.1 hA
    | cons a0 rest =>
      simp only [report_accepted, hA]
      constructor
      · intro h
        exact absurd h (by simp)
      · intro h
        have : get_acceptors procs [] = [] := by
          rcases mem_get_acceptors (hA ▸ List.mem_cons_self a0 rest) with
            ⟨hmem, hkind, _⟩
          exact absurd hkind (h a0 hmem)
        rw [this] at hA
        exact absurd hA (by simp)
  · intro ⟨p, hmem, hkind⟩
    cases hA : get_acceptors procs [] with
    | nil =>
      have := hempty.1 hA p hmem
      exact absurd hkind this
    | cons a0 rest =>
      simp only [report_accepted, hA]
      exact ⟨_, rfl⟩

/-- Witness for C10: with no processors registered, report_accepted raises;
with one registered acceptor it returns a verdict. -/
theorem report_accepted_raises_iff_no_acceptors_witness :
    report_accepted [] = none
    ∧ ∃ b, report_accepted [⟨0, ProcKind.acceptor, true, none, none⟩] = some b :=
  ⟨(report_accepted_raises_iff_no_acceptors []).1.2 (by simp),
   (report_accepted_raises_iff_no_acceptors
      [⟨0, ProcKind.acceptor, true, none, none⟩]).2
     ⟨⟨0, ProcKind.acceptor, true, none, none⟩, by simp, rfl⟩⟩

/-- Counterexample to claim C3 as stated: with a dead acceptor holding
accepted_value 1 and an alive acceptor holding accepted_value 2, every alive
acceptor holds the same non-null value (2), yet report_accepted returns
True = "still running", because the code compares the accepted values of ALL
registered acceptors, dead ones included (and requires the first acceptor's
value to be non-null). -/
theorem report_accepted_dead_acceptor_blocks_done :
    report_accepted
        [⟨0, ProcKind.acceptor, false, none, some 1⟩,
         ⟨1, ProcKind.acceptor, true, none, some 2⟩] = some true
    ∧ (∀ a ∈ get_acceptors
          [⟨0, ProcKind.acceptor, false, none, some 1⟩,
           ⟨1, ProcKind.acceptor, true, none, some 2⟩] [],
        a.alive = true → a.accepted_value = some 2)
    ∧ (∃ a ∈ get_acceptors
          [⟨0, ProcKind.acceptor, false, none, some 1⟩,
           ⟨1, ProcKind.acceptor, true, none, some 2⟩] [],
        a.alive = true) := by
  refine ⟨rfl, ?_, ?_⟩
  · decide
  · decide

/-- Claim C3 amended: report_accepted returns "still running" (True) while
any two alive acceptors hold different non-null accepted values; it returns
"done" (False) when at least one acceptor is registered and none is alive;
and it returns "done" when the FIRST registered acceptor's accepted value is
non-null and ALL registered acceptors — alive or dead — hold equal accepted
values (not merely the alive ones, which is where the claim as stated
fails). -/
theorem report_accepted_convergence :
    ∀ procs : List Proc,
      (∀ a b, a ∈ get_acceptors procs [] → b ∈ get_acceptors procs [] →
        a.alive = true → b.alive = true →
        ∀ va vb, a.accepted_value = some va → b.accepted_value = some vb →
        va ≠ vb → report_accepted procs = some true)
      ∧ (∀ a0 rest, get_acceptors procs [] = a0 :: rest →
        (∀ a ∈ get_acceptors procs [], a.alive = false) →
        report_accepted procs = some false)
      ∧ (∀ a0 rest, get_acceptors procs [] = a0 :: rest →
        a0.accepted_value ≠ none →
        all_equal ((get_acceptors procs []).map
          (fun x => x.accepted_value)) = true →
        report_accepted procs = some false) := by
  intro procs
  refine ⟨?_, ?_, ?_⟩
  · intro a b ha hb halive hblive va vb hva hvb hne
    cases hA : get_acceptors procs [] with
    | nil =>
      rw [hA] at ha
      exact absurd ha (by simp)
    | cons a0 rest =>
      have heq : all_equal ((a0 :: rest).map
          (fun x => x.accepted_value)) = false := by
        rcases hfalse : all_equal ((a0 :: rest).map
            (fun x => x.accepted_value)) with _ | _
        · exact hfalse
        · exfalso
          have hall := (all_equal_true_iff _).1 hfalse
          have hmema : a.accepted_value ∈ (a0 :: rest).map
              (fun x => x.accepted_value) :=
            List.mem_map_of_mem _ (hA ▸ ha)
          have hmemb : b.accepted_value ∈ (a0 :: rest).map
              (fun x => x.accepted_value) :=
            List.mem_map_of_mem _ (hA ▸ hb)
          have := hall _ hmema _ hmemb
          rw [hva, hvb] at this
          exact hne (by injection this)
      have hany : (a0 :: rest).any (fun x => x.alive) = true :=
        List.any_eq_true.2 ⟨a, hA ▸ ha, halive⟩
      simp only [report_accepted, hA, heq, hany]
      simp
  · intro a0 rest hA hdead
    have hany : (get_acceptors procs []).any (fun x => x.alive) = false := by
      rcases h : (get_acceptors procs []).any (fun x => x.alive) with _ | _
      · rfl
      · obtain ⟨x, hx, hxa⟩ := List.any_eq_true.1 h
        rw [hdead x hx] at hxa
        exact absurd hxa (by simp)
    rw [hA] at hany
    simp only [report_accepted, hA, hany]
    simp
  · intro a0 rest hA h0 hall
    rw [hA] at hall
    have h0b : (decide ¬a0.accepted_value = none) = true := by
      simpa using h0
    simp only [report_accepted, hA, hall, h0b]
    simp

/-- Witness for C3: concretely, two alive acceptors holding values 4 and 9
make report_accepted return True (still running), and a lone dead acceptor
makes it return False (done). -/
theorem report_accepted_convergence_witness :
    report_accepted
        [⟨0, ProcKind.acceptor, true, none, some 4⟩,
         ⟨1, ProcKind.acceptor, true, none, some 9⟩] = some true
    ∧ report_accepted [⟨0, ProcKind.acceptor, false, none, none⟩] =
        some false :=
  ⟨(report_accepted_convergence
      [⟨0, ProcKind.acceptor, true, none, some 4⟩,
       ⟨1, ProcKind.acceptor, true, none, some 9⟩]).1
    ⟨0, ProcKind.acceptor, true, none, some 4⟩
    ⟨1, ProcKind.acceptor, true, none, some 9⟩
    (by decide) (by decide) rfl rfl 4 9 rfl rfl (by decide),
   (report_accepted_convergence
      [⟨0, ProcKind.acceptor, false, none, none⟩]).2.1
    ⟨0, ProcKind.acceptor, false, none, none⟩ [] (by decide) (by decide)⟩

/-- Counterexample to claim C2 as stated: liveness is never consulted, so a
quorum may contain a dead acceptor (here the only possible return value [0]
names an acceptor whose alive flag is False); and with zero acceptors the
returned list (necessarily []) cannot have size ≥ floor(0.5*count)+1 = 1. -/
theorem quorum_ids_dead_acceptor_and_empty :
    QuorumResult [⟨0, ProcKind.acceptor, false, none, none⟩] [] [0]
    ∧ (¬ ∃ p ∈ [(⟨0, ProcKind.acceptor, false, none, none⟩ : Proc)],
        p.id = 0 ∧ p.alive = true)
    ∧ QuorumResult [] [] []
    ∧ ¬ ((get_acceptors ([] : List Proc) []).length / 2 + 1 ≤
          ([] : List Nat).length) := by
  refine ⟨?_, by decide, ?_, by decide⟩
  · exact ⟨[⟨0, ProcKind.acceptor, false, none, none⟩],
      ⟨by decide, by decide, by decide⟩, rfl⟩
  · exact ⟨[], ⟨by decide, by decide, by decide⟩, rfl⟩

/-- Claim C2 amended: every ActorId returned by get_quorum_of_acceptor_ids
identifies a registered acceptor that is not in exclude — but not necessarily
a live one, since the alive flag is never consulted — and when the filtered
acceptor pool is nonempty the returned list's size lies between
floor(0.5*count)+1 and the full pool count. -/
theorem quorum_ids_membership_and_size :
    ∀ (procs : List Proc) (exclude : List Nat) (ids : List Nat),
      QuorumResult procs exclude ids →
      (∀ i ∈ ids, ∃ p ∈ procs, p.id = i ∧ p.kind = ProcKind.acceptor ∧
        exclude.contains p.id = false)
      ∧ (1 ≤ (get_acceptors procs exclude).length →
        (get_acceptors procs exclude).length / 2 + 1 ≤ ids.length ∧
        ids.length ≤ (get_acceptors procs exclude).length) := by
  intro procs exclude ids ⟨s, ⟨hlen, _, hmem⟩, hids⟩
  constructor
  · intro i hi
    rw [hids] at hi
    obtain ⟨x, hx, hxid⟩ := List.mem_map.1 hi
    obtain ⟨hxp, hxk, hxe⟩ := mem_get_acceptors (hmem x hx)
    exact ⟨x, hxp, hxid, hxk, hxe⟩
  · intro hpos
    have hlen' : ids.length = (get_acceptors procs exclude).length := by
      rw [hids, List.length_map, hlen,
        quorum_num_eq (get_acceptors procs exclude).length]
    rw [hlen']
    omega

/-- Witness for C2: with a single live acceptor, the only possible quorum
[0] names a registered, non-excluded acceptor and its size 1 lies in the
required range. -/
theorem quorum_ids_membership_and_size_witness :
    (∀ i ∈ [0], ∃ p ∈ [(⟨0, ProcKind.acceptor, true, none, none⟩ : Proc)],
      p.id = i ∧ p.kind = ProcKind.acceptor ∧
      ([] : List Nat).contains p.id = false)
    ∧ (1 ≤ (get_acceptors
          [(⟨0, ProcKind.acceptor, true, none, none⟩ : Proc)] []).length →
      (get_acceptors
          [(⟨0, ProcKind.acceptor, true, none, none⟩ : Proc)] []).length / 2
          + 1 ≤ ([0] : List Nat).length ∧
      ([0] : List Nat).length ≤ (get_acceptors
          [(⟨0, ProcKind.acceptor, true, none, none⟩ : Proc)] []).length) :=
  quorum_ids_membership_and_size
    [⟨0, ProcKind.acceptor, true, none, none⟩] [] [0]
    ⟨[⟨0, ProcKind.acceptor, true, none, none⟩],
      ⟨by decide, by decide, by decide⟩, rfl⟩

/-- Claim C7: with a nonempty registered acceptor pool and empty exclude
list, every returned quorum has size strictly greater than half the pool
count, and any two returned quorums share at least one ActorId. -/
theorem quorum_majority_and_intersection :
    ∀ (procs : List Proc) (ids1 ids2 : List Nat),
      QuorumResult procs [] ids1 → QuorumResult procs [] ids2 →
      1 ≤ (get_acceptors procs []).length →
      2 * ids1.length > (get_acceptors procs []).length
      ∧ ∃ i, i ∈ ids1 ∧ i ∈ ids2 := by
  intro procs ids1 ids2 ⟨s1, ⟨hlen1, hnd1, hmem1⟩, hids1⟩
    ⟨s2, ⟨hlen2, hnd2, hmem2⟩, hids2⟩ hpos
  have hc1 : ids1.length = (get_acceptors procs []).length := by
    rw [hids1, List.length_map, hlen1, quorum_num_eq]
  have hc2 : ids2.length = (get_acceptors procs []).length := by
    rw [hids2, List.length_map, hlen2, quorum_num_eq]
  constructor
  · omega
  · have hsub1 : s1.toFinset ⊆ (get_acceptors procs []).toFinset := by
      intro x hx
      exact List.mem_toFinset.2 (hmem1 x (List.mem_toFinset.1 hx))
    have hsub2 : s2.toFinset ⊆ (get_acceptors procs []).toFinset := by
      intro x hx
      exact List.mem_toFinset.2 (hmem2 x (List.mem_toFinset.1 hx))
    have hcard1 : s1.toFinset.card = (get_acceptors procs []).length := by
      rw [List.toFinset_card_of_nodup hnd1, hlen1, quorum_num_eq]
    have hcard2 : s2.toFinset.card = (get_acceptors procs []).length := by
      rw [List.toFinset_card_of_nodup hnd2, hlen2, quorum_num_eq]
    have hinter : (s1.toFinset ∩ s2.toFinset).Nonempty := by
      rw [← Finset.card_pos]
      by_contra hzero
      push_neg at hzero
      have hz : (s1.toFinset ∩ s2.toFinset).card = 0 := by omega
      have hun : (s1.toFinset ∪ s2.toFinset).card =
          s1.toFinset.card + s2.toFinset.card := by
        have := Finset.card_union_add_card_inter s1.toFinset s2.toFinset
        omega
      have hunsub : s1.toFinset ∪ s2.toFinset ⊆
          (get_acceptors procs []).toFinset :=
        Finset.union_subset hsub1 hsub2
      have hle : (s1.toFinset ∪ s2.toFinset).card ≤
          (get_acceptors procs []).toFinset.card :=
        Finset.card_le_card hunsub
      have hpool : (get_acceptors procs []).toFinset.card ≤
          (get_acceptors procs []).length :=
        List.toFinset_card_le _
      omega
    obtain ⟨p, hp⟩ := hinter
    rw [Finset.mem_inter] at hp
    refine ⟨p.id, ?_, ?_⟩
    · rw [hids1]
      exact List.mem_map_of_mem _ (List.mem_toFinset.1 hp.1)
    · rw [hids2]
      exact List.mem_map_of_mem _ (List.mem_toFinset.1 hp.2)

/-- Witness for C7: with a single registered acceptor, the only quorum [0]
has size 2*1 > 1 and two such quorums intersect at id 0. -/
theorem quorum_majority_and_intersection_witness :
    2 * ([0] : List Nat).length > (get_acceptors
        [(⟨0, ProcKind.acceptor, true, none, none⟩ : Proc)] []).length
    ∧ ∃ i, i ∈ ([0] : List Nat) ∧ i ∈ ([0] : List Nat) :=
  quorum_majority_and_intersection
    [⟨0, ProcKind.acceptor, true, none, none⟩] [0] [0]
    ⟨[⟨0, ProcKind.acceptor, true, none, none⟩],
      ⟨by decide, by decide, by decide⟩, rfl⟩
    ⟨[⟨0, ProcKind.acceptor, true, none, none⟩],
      ⟨by decide, by decide, by decide⟩, rfl⟩
    (by decide)

/-! ## Proposer promise-handling lemmas -/

theorem dictInsert_length (m : List (Nat × PromiseMessage)) (frm : Nat)
    (msg : PromiseMessage) :
    (dictInsert m frm msg).length =
      if m.any (fun p => p.1 = frm) then m.length else m.length + 1 := by
  unfold dictInsert
  split
  · simp
  · simp

/-- Counterexample to claim C1 as stated: with 2 target acceptors the
threshold ceil(0.5*2) = 1 is reached by a single promise, which is NOT a
majority (2*1 > 2 fails), yet phase 2 is broadcast; and a later duplicate
promise from the same already-recorded sender leaves the count at the
threshold and re-triggers the identical broadcast. -/
theorem promise_broadcast_not_majority_and_retrigger :
    handle_promise_message ⟨some 42, some 10, some [0, 1], [], none⟩
        ⟨10, none, none⟩ 0 =
      .ok (⟨some 42, some 10, some [0, 1], [(0, ⟨10, none, none⟩)], some 42⟩,
           [(0, ⟨10, 42⟩), (1, ⟨10, 42⟩)])
    ∧ ¬ (2 * [(0, (⟨10, none, none⟩ : PromiseMessage))].length >
          [0, 1].length)
    ∧ handle_promise_message
        ⟨some 42, some 10, some [0, 1], [(0, ⟨10, none, none⟩)], some 42⟩
        ⟨10, none, none⟩ 0 =
      .ok (⟨some 42, some 10, some [0, 1], [(0, ⟨10, none, none⟩)], some 42⟩,
           [(0, ⟨10, 42⟩), (1, ⟨10, 42⟩)]) := by
  refine ⟨rfl, by decide, rfl⟩

/-- Claim C1 amended: with targetAcceptors of size n, onPromise triggers
phase 2 (broadcasting Accept(number, v) to every id in targetAcceptors)
exactly when the recorded-promise count equals ceil(0.5*n); this threshold
satisfies only 2*ceil(0.5*n) ≥ n — it is a strict majority for odd n but
exactly n/2 for even n; and promises from senders not already recorded that
arrive once the count is at or past the threshold do not re-trigger the
broadcast (a duplicate from a recorded sender at the threshold does). -/
theorem promise_threshold_broadcast :
    ∀ (s : ProposerState) (msg : PromiseMessage) (frm : Nat)
      (accs : List Nat),
      s.acceptors = some accs →
      ((dictInsert s.promises frm msg).length ≠ ceilHalf accs.length →
        handle_promise_message s msg frm =
          .ok ({ s with promises := dictInsert s.promises frm msg }, []))
      ∧ (∀ n vv, s.number = some n →
        promiseValue s.proposal (dictInsert s.promises frm msg) = some vv →
        (dictInsert s.promises frm msg).length = ceilHalf accs.length →
        handle_promise_message s msg frm =
          .ok ({ s with promises := dictInsert s.promises frm msg,
                        v := some vv },
               accs.map (fun a => (a, AcceptMessage.mk n vv))))
      ∧ 2 * ceilHalf accs.length ≥ accs.length
      ∧ (s.promises.all (fun p => ¬ p.1 = frm) = true →
        ceilHalf accs.length ≤ s.promises.length →
        handle_promise_message s msg frm =
          .ok ({ s with promises := dictInsert s.promises frm msg }, [])) := by
  intro s msg frm accs hacc
  have hnotrig : (dictInsert s.promises frm msg).length ≠
      ceilHalf accs.length →
      handle_promise_message s msg frm =
        .ok ({ s with promises := dictInsert s.promises frm msg }, []) := by
    intro hne
    simp only [handle_promise_message, hacc, if_neg hne]
  refine ⟨hnotrig, ?_, ?_, ?_⟩
  · intro n vv hn hv hth
    simp only [handle_promise_message, hacc, if_pos hth, hn, hv]
  · unfold ceilHalf
    omega
  · intro hfresh hge
    have hany : s.promises.any (fun p => p.1 = frm) = false := by
      rcases h : s.promises.any (fun p => p.1 = frm) with _ | _
      · rfl
      · obtain ⟨x, hx, hxf⟩ := List.any_eq_true.1 h
        have := List.all_eq_true.1 hfresh x hx
        simp only [decide_eq_true_eq] at this hxf
        exact absurd hxf this
    apply hnotrig
    rw [dictInsert_length, hany]
    simp only [Bool.false_eq_true, if_false]
    omega

/-- Witness for C1: a proposer with three target acceptors records a first
promise (count 1, threshold ceil(1.5) = 2) without broadcasting. -/
theorem promise_threshold_broadcast_witness :
    handle_promise_message ⟨some 5, some 10, some [0, 1, 2], [], none⟩
        ⟨10, none, none⟩ 0 =
      .ok (⟨some 5, some 10, some [0, 1, 2], [(0, ⟨10, none, none⟩)], none⟩,
           []) :=
  (promise_threshold_broadcast ⟨some 5, some 10, some [0, 1, 2], [], none⟩
    ⟨10, none, none⟩ 0 [0, 1, 2] rfl).1 (by decide)

/-! ## Dispatch error reporting (claim C8) -/

/-- Counterexample to claim C8 as stated: the catch-all exception text does
not surface the receiving actor's id — two actors of the same kind with
different ids produce byte-identical reports, so no reader of the report can
recover the id. -/
theorem catch_error_omits_actor_id :
    handle_message_catch "Monitor" 0 "FooMessage" 3 =
      handle_message_catch "Monitor" 5 "FooMessage" 3
    ∧ ¬ ∃ f : String → Nat,
        ∀ (ak : String) (i : Nat) (mkind : String) (frm : Nat),
          f (handle_message_catch ak i mkind frm) = i := by
  refine ⟨rfl, ?_⟩
  rintro ⟨f, hf⟩
  have h0 := hf "Monitor" 0 "FooMessage" 3
  have h5 := hf "Monitor" 5 "FooMessage" 3
  rw [show handle_message_catch "Monitor" 0 "FooMessage" 3 =
    handle_message_catch "Monitor" 5 "FooMessage" 3 from rfl] at h0
  omega

/-- Claim C8 amended: dispatching a message kind that no role has registered
a handler for (the handler table is shared across roles, so registration is
by message kind only) raises a fatal error that aborts the mailbox drain —
and hence the actor's task — immediately, and the error text surfaces the
actor's kind, the offending message kind and the sender id, but not the
actor's id. -/
theorem unregistered_kind_fatal :
    ∀ (ak : String) (i : Nat) (l : KindLetter) (rest : List KindLetter),
      registered_kinds.contains l.msg_kind = false →
      process_mailbox_kinds ak i (l :: rest) =
        .error (handle_message_catch ak i l.msg_kind l.frm)
      ∧ (∃ p q, handle_message_catch ak i l.msg_kind l.frm =
          p ++ l.msg_kind ++ q)
      ∧ (∃ p q, handle_message_catch ak i l.msg_kind l.frm = p ++ ak ++ q)
      ∧ (∃ p, handle_message_catch ak i l.msg_kind l.frm =
          p ++ toString l.frm) := by
  intro ak i l rest hreg
  refine ⟨?_, ?_, ?_, ?_⟩
  · simp only [process_mailbox_kinds, hreg]
    simp
  · refine ⟨"No message handling logic for message type ",
      " in " ++ ak ++ " sent by " ++ toString l.frm, ?_⟩
    simp only [handle_message_catch, String.append_assoc]
  · refine ⟨"No message handling logic for message type " ++ l.msg_kind ++
      " in ", " sent by " ++ toString l.frm, ?_⟩
    simp only [handle_message_catch, String.append_assoc]
  · refine ⟨"No message handling logic for message type " ++ l.msg_kind ++
      " in " ++ ak ++ " sent by ", ?_⟩
    simp only [handle_message_catch, String.append_assoc]

/-- Witness for C8: a FooMessage letter from sender 3 at actor 7 of kind
Monitor aborts the drain with the catch-all report. -/
theorem unregistered_kind_fatal_witness :
    process_mailbox_kinds "Monitor" 7 [⟨3, "FooMessage"⟩] =
      .error (handle_message_catch "Monitor" 7 "FooMessage" 3)
    ∧ ∃ p q, handle_message_catch "Monitor" 7 "FooMessage" 3 =
        p ++ "FooMessage" ++ q :=
  ⟨(unregistered_kind_fatal "Monitor" 7 ⟨3, "FooMessage"⟩ [] (by decide)).1,
   (unregistered_kind_fatal "Monitor" 7 ⟨3, "FooMessage"⟩ [] (by decide)).2.1⟩

end PaxosAsyncio
